import Mathlib

/-
  Formal model of the PWA_Busting_Bias repository.

  The main subject is the offline asset-caching service worker
  (src/service-worker.js): its install, activate and fetch handlers over
  a store of named cache buckets.  The game scripts (the two unnamed
  source files) contribute the handleResponse functions modelled at the
  end of the file.

  Modelling conventions:
  - A Response models a JS Response object: a body, a single-read flag
    (bodyUsed), and an identity tag rid modelling object identity
    (Response.clone yields a fresh object: same body, different rid).
  - The network is a pure function from URL to Option String: some body
    on success, none when fetch throws (offline, DNS failure, ...).
  - A cache bucket is an association list from URL to Response; the
    CacheStore is an association list from bucket name to bucket,
    mirroring the CacheStorage API (open, match, keys, delete, put).
  - The fetch handler returns a FetchOutcome recording the value passed
    to respondWith (none = the handler returned without intercepting),
    the store at the moment the response is returned, the still-pending
    fire-and-forget cache.put tasks, and counters of network calls and
    cache lookups performed.
-/

/-- A JS Response object: body contents, the single-read bodyUsed flag,
and an identity tag distinguishing distinct objects with equal bodies. -/
structure Response where
  body : String
  bodyUsed : Bool
  rid : Nat
deriving DecidableEq, Repr

/-- Response.clone(): a distinct object (fresh rid) with the same body. -/
def Response.clone (r : Response) : Response :=
  { body := r.body, bodyUsed := r.bodyUsed, rid := r.rid + 1 }

/-- An intercepted request: its URL and its mode ("navigate" or not). -/
structure Request where
  url : String
  mode : String
deriving DecidableEq, Repr

/-- A cache bucket: URL-keyed association list of stored responses. -/
abbrev Bucket : Type := List (String × Response)

/-- The CacheStorage state: association list from bucket name to bucket. -/
abbrev CacheStore : Type := List (String × Bucket)

/-- Character-wise prefix test on char lists (JS String.prototype.startsWith). -/
def listIsPrefix : List Char → List Char → Bool
  | _, [] => true
  | [], _ :: _ => false
  | c :: cs, d :: ds => c == d && listIsPrefix cs ds

/-- url.startsWith(pre), as used by the scheme guard in the fetch handler. -/
def strStartsWith (s pre : String) : Bool :=
  listIsPrefix s.data pre.data

/-- The version tag constant CACHE_NAME from src/service-worker.js. -/
def CACHE_NAME : String := "busting-bias-v2"

/-- The precache manifest PRECACHE_ASSETS from src/service-worker.js
(the "/offline.html" line is commented out in the source). -/
def PRECACHE_ASSETS : List String :=
  ["/", "/index.html", "/style.css", "/game.js", "/manifest.json",
   "/icons/icon-192.png", "/icons/icon-512.png", "/correct.wav", "/incorrect.wav"]

/-- Look a URL up in one bucket (first matching entry). -/
def bucketGet : Bucket → String → Option Response
  | [], _ => none
  | kv :: rest, u => if kv.1 = u then some kv.2 else bucketGet rest u

/-- cache.put(req, resp): overwrite the entry for the URL in place,
or append a new entry when the URL is absent. -/
def bucketPut : Bucket → String → Response → Bucket
  | [], u, r => [(u, r)]
  | kv :: rest, u, r => if kv.1 = u then (u, r) :: rest else kv :: bucketPut rest u r

/-- The bucket stored under a name (the empty bucket when absent). -/
def storeGet : CacheStore → String → Bucket
  | [], _ => []
  | kv :: rest, n => if kv.1 = n then kv.2 else storeGet rest n

/-- Replace the bucket stored under a name (append when absent). -/
def storeSet : CacheStore → String → Bucket → CacheStore
  | [], n, b => [(n, b)]
  | kv :: rest, n, b => if kv.1 = n then (n, b) :: rest else kv :: storeSet rest n b

/-- caches.open(name): create the named bucket if it is absent. -/
def cachesOpen : CacheStore → String → CacheStore
  | [], n => [(n, [])]
  | kv :: rest, n => if kv.1 = n then kv :: rest else kv :: cachesOpen rest n

/-- caches.keys(): the list of existing bucket names. -/
def cachesKeys (s : CacheStore) : List String :=
  s.map Prod.fst

/-- caches.delete(name): remove the named bucket. -/
def cachesDelete : CacheStore → String → CacheStore
  | [], _ => []
  | kv :: rest, n =>
    if kv.1 = n then cachesDelete rest n else kv :: cachesDelete rest n

/-- caches.match(url): search every bucket, in storage order, for the URL. -/
def cachesMatch : CacheStore → String → Option Response
  | [], _ => none
  | kv :: rest, u =>
    match bucketGet kv.2 u with
    | some r => some r
    | none => cachesMatch rest u

/-- The install handler loop body over an opened cache bucket: for each
manifest asset, cache.add(asset) fetches it and stores the response
(success responses are modelled with bodyUsed = false and rid = 0); a
failure is caught and the asset is recorded in the warning log instead.
Returns the final bucket and the list of warned assets, in manifest order. -/
def installBucket (net : String → Option String) : List String → Bucket → Bucket × List String
  | [], b => (b, [])
  | asset :: rest, b =>
    match net asset with
    | some body =>
      installBucket net rest (bucketPut b asset { body := body, bodyUsed := false, rid := 0 })
    | none =>
      let out := installBucket net rest b
      (out.1, asset :: out.2)

/-- The install handler: open the CACHE_NAME bucket, then run the
precache loop of installBucket over it with the given manifest. -/
def installOverStore (manifest : List String) (net : String → Option String)
    (s : CacheStore) : CacheStore × List String :=
  let opened := cachesOpen s CACHE_NAME
  let out := installBucket net manifest (storeGet opened CACHE_NAME)
  (storeSet opened CACHE_NAME out.1, out.2)

/-- The install handler of src/service-worker.js, with its literal manifest. -/
def installSW (net : String → Option String) (s : CacheStore) : CacheStore × List String :=
  installOverStore PRECACHE_ASSETS net s

/-- The activate handler loop: keys.map(key => key === CACHE_NAME ? null :
caches.delete(key)).  The deletions are independent, so the parallel
Promise.all is modelled as a left-to-right fold of the deletions. -/
def deleteStale : List String → CacheStore → CacheStore
  | [], s => s
  | k :: ks, s => deleteStale ks (if k = CACHE_NAME then s else cachesDelete s k)

/-- The activate handler of src/service-worker.js: enumerate the bucket
names and delete every bucket whose name is not CACHE_NAME. -/
def activateSW (s : CacheStore) : CacheStore :=
  deleteStale (cachesKeys s) s

/-- The outcome of running the fetch handler on one event:
respondedWith is none when the handler returned without calling
event.respondWith, and some r when it responded with r (where r = none
models responding with undefined, i.e. the no-match result); store is the
cache state at the moment the response is returned; pending lists the
fire-and-forget cache.put tasks (URL and response to be stored into the
CACHE_NAME bucket) that were issued but not awaited; netCalls and
cacheLookups count the fetch() and caches.match() calls performed. -/
structure FetchOutcome where
  respondedWith : Option (Option Response)
  store : CacheStore
  pending : List (String × Response)
  netCalls : Nat
  cacheLookups : Nat
deriving DecidableEq

/-- fetch(req): a successful network fetch yields a fresh unread
Response (rid 0); none models the fetch throwing. -/
def fetchResp (net : String → Option String) (u : String) : Option Response :=
  (net u).map (fun body => { body := body, bodyUsed := false, rid := 0 })

/-- The fetch handler of src/service-worker.js.  The guard ignores any
request whose URL does not start with "http"; a navigation request is
network-first with fallback to caches.match(req) and then to
caches.match("/offline.html"); every other request is cache-first, and on
a miss with a successful fetch stores a clone of the response into the
CACHE_NAME bucket without awaiting the put (the put is recorded in
pending), returning the original response. -/
def handleFetch (net : String → Option String) (store : CacheStore) (req : Request) :
    FetchOutcome :=
  if ! strStartsWith req.url "http" then
    { respondedWith := none, store := store, pending := [], netCalls := 0, cacheLookups := 0 }
  else if req.mode = "navigate" then
    match fetchResp net req.url with
    | some fresh =>
      { respondedWith := some (some fresh), store := store, pending := [],
        netCalls := 1, cacheLookups := 0 }
    | none =>
      match cachesMatch store req.url with
      | some r =>
        { respondedWith := some (some r), store := store, pending := [],
          netCalls := 1, cacheLookups := 1 }
      | none =>
        { respondedWith := some (cachesMatch store "/offline.html"), store := store,
          pending := [], netCalls := 1, cacheLookups := 2 }
  else
    match cachesMatch store req.url with
    | some cached =>
      { respondedWith := some (some cached), store := store, pending := [],
        netCalls := 0, cacheLookups := 1 }
    | none =>
      match fetchResp net req.url with
      | some fresh =>
        if strStartsWith req.url "http" then
          { respondedWith := some (some fresh), store := cachesOpen store CACHE_NAME,
            pending := [(req.url, Response.clone fresh)], netCalls := 1, cacheLookups := 1 }
        else
          { respondedWith := some (some fresh), store := store, pending := [],
            netCalls := 1, cacheLookups := 1 }
      | none =>
        { respondedWith := some none, store := store, pending := [],
          netCalls := 1, cacheLookups := 1 }

/-- Apply the still-pending fire-and-forget cache.put tasks to the store:
each one stores its response into the CACHE_NAME bucket. -/
def applyPending (s : CacheStore) (pend : List (String × Response)) : CacheStore :=
  pend.foldl (fun acc ur => storeSet acc CACHE_NAME (bucketPut (storeGet acc CACHE_NAME) ur.1 ur.2)) s

/-- The scheme of a URL: the characters before the first colon.  This
renders the spec's notion of a request scheme; the source code itself
only tests the four-character prefix "http". -/
def urlScheme (u : String) : String :=
  String.mk (u.data.takeWhile (fun c => c != ':'))

/-- A network on which every fetch succeeds with body "ok". -/
def netAllOk : String → Option String :=
  fun _ => some "ok"

/-- A network on which every fetch throws. -/
def netDown : String → Option String :=
  fun _ => none

/-- A network on which fetching "/a.js" throws and every other fetch
succeeds with body "B". -/
def netFailA : String → Option String :=
  fun u => if u = "/a.js" then none else some "B"

/-
  Game logic.  The repository ships two variants of the quiz script; both
  define a handleResponse(choice) with the guard
  `if (currentIndex >= stimuli.length) return;`.  The first variant shows
  words, the second shows alien images.  DOM and audio effects are out of
  scope; the modelled state keeps the mutable game variables, the recorded
  responses, and the feedback currently displayed.
-/

namespace WordGame

/-- A stimulus of the word-game script: the word and its correct side. -/
structure Stimulus where
  word : String
  correct : String
deriving DecidableEq, Repr

/-- One recorded answer, as pushed by saveResponse.  The source computes
timeTaken in seconds as a float; the model records the elapsed
milliseconds (Date.now() difference) as a natural number. -/
structure ResponseRec where
  word : String
  choice : String
  isCorrect : Bool
  timeTakenMs : Nat
  correctAnswer : String
deriving DecidableEq, Repr

/-- The mutable state of the word-game script: the shuffled stimuli,
the cursor, the score, the recorded responses, the feedback currently
displayed (some isCorrect when visible), and the time at which the
current stimulus was shown. -/
structure GameState where
  stimuli : List Stimulus
  currentIndex : Nat
  score : Nat
  responses : List ResponseRec
  feedback : Option Bool
  startTime : Nat
deriving DecidableEq, Repr

/-- handleResponse(choice) of the word-game script (synchronous part):
guarded by currentIndex >= stimuli.length; otherwise checks the choice
against the current stimulus, bumps the score when correct, records the
response, and shows the feedback mark.  The 600 ms continuation that
hides the feedback and advances currentIndex is scheduled with
setTimeout and is not part of this synchronous step. -/
def handleResponse (choice : String) (now : Nat) (s : GameState) : GameState :=
  if h : s.currentIndex ≥ s.stimuli.length then s
  else
    let wordObj := s.stimuli.get ⟨s.currentIndex, by omega⟩
    let isCorrect := choice == wordObj.correct
    let resp : ResponseRec :=
      { word := wordObj.word, choice := choice, isCorrect := isCorrect,
        timeTakenMs := now - s.startTime, correctAnswer := wordObj.correct }
    { s with
      score := if isCorrect then s.score + 1 else s.score,
      responses := s.responses ++ [resp],
      feedback := some isCorrect }

end WordGame

namespace AlienGame

/-- A stimulus of the alien-game script: the image path and its correct side. -/
structure Stimulus where
  image : String
  correct : String
deriving DecidableEq, Repr

/-- One recap row appended by logAttempt: thumbnail image, the choice in
upper case, the assigned category label, and the correctness mark. -/
structure Attempt where
  image : String
  choiceUpper : String
  category : String
  isCorrect : Bool
deriving DecidableEq, Repr

/-- The mutable state of the alien-game script: shuffled stimuli, cursor,
score, the recap rows, and the feedback text currently displayed. -/
structure GameState where
  stimuli : List Stimulus
  currentIndex : Nat
  score : Nat
  attempts : List Attempt
  feedback : String
deriving DecidableEq, Repr

/-- handleResponse(choice) of the alien-game script (synchronous part):
guarded by currentIndex >= stimuli.length; otherwise sets the feedback
text, bumps the score when correct, and logs the attempt into the recap.
The 600 ms setTimeout continuation advancing currentIndex is not part of
this synchronous step. -/
def handleResponse (choice : String) (s : GameState) : GameState :=
  if h : s.currentIndex ≥ s.stimuli.length then s
  else
    let alien := s.stimuli.get ⟨s.currentIndex, by omega⟩
    let isCorrect := choice == alien.correct
    let row : Attempt :=
      { image := alien.image, choiceUpper := choice.toUpper,
        category := if alien.correct = "right" then "Positive" else "Negative",
        isCorrect := isCorrect }
    { s with
      feedback := if isCorrect then "Positive" else "Negative",
      score := if isCorrect then s.score + 1 else s.score,
      attempts := s.attempts ++ [row] }

end AlienGame

-- Sanity examples exercising the model on concrete inputs.
example : bucketGet (bucketPut [] "/x" { body := "b", bodyUsed := false, rid := 0 }) "/x"
    = some { body := "b", bodyUsed := false, rid := 0 } := by decide
example : (installSW netAllOk []).2 = [] := by decide
example : (installSW netDown []).2 = PRECACHE_ASSETS := by decide
example : cachesKeys (activateSW [(CACHE_NAME, []), ("busting-bias-v1", [])]) = [CACHE_NAME] := by
  decide
example :
    (handleFetch netAllOk [] { url := "chrome-extension://x", mode := "no-cors" }).respondedWith
      = none := by decide
example : (handleFetch netAllOk [] { url := "httpx://a", mode := "no-cors" }).netCalls = 1 := by
  decide

/-
  Helper lemmas about the bucket and store operations.
-/

theorem bucketGet_bucketPut_self (b : Bucket) (u : String) (r : Response) :
    bucketGet (bucketPut b u r) u = some r := by
  induction b with
  | nil => simp [bucketPut, bucketGet]
  | cons kv rest ih =>
    by_cases h : kv.1 = u
    · simp [bucketPut, bucketGet, h]
    · simp [bucketPut, bucketGet, h, ih]

theorem bucketGet_bucketPut_ne (b : Bucket) (u v : String) (r : Response) (h : v ≠ u) :
    bucketGet (bucketPut b v r) u = bucketGet b u := by
  induction b with
  | nil => simp [bucketPut, bucketGet, h]
  | cons kv rest ih =>
    by_cases hk : kv.1 = v
    · simp [bucketPut, bucketGet, hk, h]
    · simp only [bucketPut, if_neg hk]
      by_cases hu : kv.1 = u
      · simp [bucketGet, hu]
      · simp [bucketGet, hu, ih]

theorem bucketPut_eq_of_get (b : Bucket) (u : String) (r : Response)
    (h : bucketGet b u = some r) : bucketPut b u r = b := by
  induction b with
  | nil => simp [bucketGet] at h
  | cons kv rest ih =>
    obtain ⟨k, v⟩ := kv
    by_cases hk : k = u
    · subst hk
      simp [bucketGet] at h
      simp [bucketPut, h]
    · simp [bucketGet, hk] at h
      simp [bucketPut, hk, ih h]

theorem storeGet_storeSet_self (s : CacheStore) (n : String) (b : Bucket) :
    storeGet (storeSet s n b) n = b := by
  induction s with
  | nil => simp [storeSet, storeGet]
  | cons kv rest ih =>
    by_cases h : kv.1 = n
    · simp [storeSet, storeGet, h]
    · simp [storeSet, storeGet, h, ih]

theorem storeSet_storeSet (s : CacheStore) (n : String) (b b2 : Bucket) :
    storeSet (storeSet s n b) n b2 = storeSet s n b2 := by
  induction s with
  | nil => simp [storeSet]
  | cons kv rest ih =>
    by_cases h : kv.1 = n
    · simp [storeSet, h]
    · simp [storeSet, h, ih]

theorem storeGet_cachesOpen (s : CacheStore) (n : String) :
    storeGet (cachesOpen s n) n = storeGet s n := by
  induction s with
  | nil => simp [cachesOpen, storeGet]
  | cons kv rest ih =>
    by_cases h : kv.1 = n
    · simp [cachesOpen, storeGet, h]
    · simp [cachesOpen, storeGet, h, ih]

theorem mem_keys_storeSet (s : CacheStore) (n : String) (b : Bucket) :
    n ∈ cachesKeys (storeSet s n b) := by
  induction s with
  | nil => simp [storeSet, cachesKeys]
  | cons kv rest ih =>
    by_cases h : kv.1 = n
    · simp [storeSet, cachesKeys, h]
    · simp only [storeSet, if_neg h, cachesKeys, List.map_cons, List.mem_cons]
      exact Or.inr ih

theorem cachesOpen_of_mem (s : CacheStore) (n : String) (h : n ∈ cachesKeys s) :
    cachesOpen s n = s := by
  induction s with
  | nil => simp [cachesKeys] at h
  | cons kv rest ih =>
    by_cases hk : kv.1 = n
    · simp [cachesOpen, hk]
    · simp only [cachesKeys, List.map_cons, List.mem_cons] at h
      rcases h with h | h

      · exact absurd h.symm hk
      · simp [cachesOpen, hk, ih h]

theorem mem_cachesDelete (s : CacheStore) (n : String) (kv : String × Bucket) :
    kv ∈ cachesDelete s n ↔ kv ∈ s ∧ ¬ kv.1 = n := by
  induction s with
  | nil => simp [cachesDelete]
  | cons hd rest ih =>
    by_cases h : hd.1 = n
    · rw [cachesDelete, if_pos h, ih]
      simp only [List.mem_cons]
      constructor
      · rintro ⟨hm, hn⟩
        exact ⟨Or.inr hm, hn⟩
      · rintro ⟨hor, hn⟩
        rcases hor with rfl | hm
        · exact absurd h hn
        · exact ⟨hm, hn⟩
    · rw [cachesDelete, if_neg h]
      simp only [List.mem_cons, ih]
      constructor
      · rintro (rfl | ⟨hm, hn⟩)
        · exact ⟨Or.inl rfl, h⟩
        · exact ⟨Or.inr hm, hn⟩
      · rintro ⟨rfl | hm, hn⟩
        · exact Or.inl rfl
        · exact Or.inr ⟨hm, hn⟩

theorem storeGet_cachesDelete_ne (s : CacheStore) (n m : String) (h : n ≠ m) :
    storeGet (cachesDelete s m) n = storeGet s n := by
  induction s with
  | nil => simp [cachesDelete]
  | cons kv rest ih =>
    by_cases hk : kv.1 = m
    · rw [cachesDelete, if_pos hk, ih, storeGet, if_neg (by rw [hk]; exact fun e => h e.symm)]
    · by_cases hn : kv.1 = n
      · rw [cachesDelete, if_neg hk, storeGet, if_pos hn, storeGet, if_pos hn]
      · rw [cachesDelete, if_neg hk, storeGet, if_neg hn, storeGet, if_neg hn, ih]

theorem cachesMatch_none_bucketGet (s : CacheStore) (u n : String)
    (h : cachesMatch s u = none) : bucketGet (storeGet s n) u = none := by
  induction s with
  | nil => simp [storeGet, bucketGet]
  | cons kv rest ih =>
    rw [cachesMatch] at h
    rcases hb : bucketGet kv.2 u with _ | r
    · rw [hb] at h
      by_cases hk : kv.1 = n
      · rw [storeGet, if_pos hk]
        exact hb
      · rw [storeGet, if_neg hk]
        exact ih h
    · rw [hb] at h
      exact absurd h (by simp)

/-
  Lemmas about the activate fold.
-/

theorem mem_deleteStale (ks : List String) (s : CacheStore) (kv : String × Bucket) :
    kv ∈ deleteStale ks s ↔ kv ∈ s ∧ (kv.1 = CACHE_NAME ∨ ¬ kv.1 ∈ ks) := by
  induction ks generalizing s with
  | nil => simp [deleteStale]
  | cons k ks ih =>
    rw [deleteStale]
    by_cases hk : k = CACHE_NAME
    · rw [if_pos hk, ih]
      subst hk
      simp only [List.mem_cons, not_or]
      tauto
    · rw [if_neg hk, ih, mem_cachesDelete]
      simp only [List.mem_cons, not_or]
      constructor
      · rintro ⟨⟨hs, hne⟩, hor⟩
        refine ⟨hs, ?_⟩
        rcases hor with hC | hnot
        · exact Or.inl hC
        · exact Or.inr ⟨hne, hnot⟩
      · rintro ⟨hs, hC | ⟨hne, hnot⟩⟩
        · exact ⟨⟨hs, fun he => hk (he ▸ hC)⟩, Or.inl hC⟩
        · exact ⟨⟨hs, hne⟩, Or.inr hnot⟩

theorem storeGet_deleteStale (ks : List String) (s : CacheStore) :
    storeGet (deleteStale ks s) CACHE_NAME = storeGet s CACHE_NAME := by
  induction ks generalizing s with
  | nil => rw [deleteStale]
  | cons k ks ih =>
    rw [deleteStale]
    by_cases hk : k = CACHE_NAME
    · rw [if_pos hk, ih]
    · rw [if_neg hk, ih, storeGet_cachesDelete_ne _ _ _ (fun e => hk e.symm)]

/-- A staged cache store with the current bucket and two stale buckets. -/
def exActivateStore : CacheStore :=
  [(CACHE_NAME, [("https://a/x.js", { body := "keep", bodyUsed := false, rid := 0 })]),
   ("busting-bias-v1", [("https://a/y.js", { body := "old", bodyUsed := false, rid := 0 })]),
   ("busting-bias-v0", [])]

/-- C1: after the activate handler completes, the set of existing cache
bucket tags equals exactly the singleton of the current version tag
CACHE_NAME, for every starting store whose tags include the current tag
alongside any number of stale tags; the current bucket is never deleted
(its contents are preserved) and every non-matching bucket is deleted. -/
theorem activate_bucket_tags_singleton (store : CacheStore)
    (h : CACHE_NAME ∈ cachesKeys store) :
    (cachesKeys (activateSW store)).toFinset = {CACHE_NAME} ∧
    storeGet (activateSW store) CACHE_NAME = storeGet store CACHE_NAME := by
  constructor
  · ext k
    simp only [List.mem_toFinset, Finset.mem_singleton]
    constructor
    · intro hk
      rw [activateSW] at hk
      unfold cachesKeys at hk
      rcases List.mem_map.mp hk with ⟨kv, hkv, hk1⟩
      rcases (mem_deleteStale _ _ _).mp hkv with ⟨hs, hC | hnot⟩
      · rw [← hk1]; exact hC
      · exact absurd (List.mem_map_of_mem Prod.fst hs) hnot
    · rintro rfl
      unfold cachesKeys at h
      rcases List.mem_map.mp h with ⟨kv, hkv, hk1⟩
      rw [activateSW]
      unfold cachesKeys
      exact List.mem_map.mpr ⟨kv, (mem_deleteStale _ _ _).mpr ⟨hkv, Or.inl hk1⟩, hk1⟩
  · exact storeGet_deleteStale _ _

/-- Witness for C1 on a store holding the current bucket and two stale ones. -/
theorem activate_bucket_tags_singleton_witness :
    CACHE_NAME ∈ cachesKeys exActivateStore ∧
    ((cachesKeys (activateSW exActivateStore)).toFinset = {CACHE_NAME} ∧
     storeGet (activateSW exActivateStore) CACHE_NAME = storeGet exActivateStore CACHE_NAME) :=
  ⟨by decide, activate_bucket_tags_singleton exActivateStore (by decide)⟩

/-- C3: for a non-navigation HTTP(S) request present in the bucket, the
fetch handler returns the cached response, leaves the store untouched,
issues no fire-and-forget work, and performs zero network fetch calls. -/
theorem subresource_hit_no_network (net : String → Option String) (store : CacheStore)
    (req : Request) (c : Response)
    (h1 : strStartsWith req.url "http" = true)
    (h2 : ¬ req.mode = "navigate")
    (h3 : cachesMatch store req.url = some c) :
    handleFetch net store req =
      { respondedWith := some (some c), store := store, pending := [],
        netCalls := 0, cacheLookups := 1 } := by
  simp [handleFetch, h1, h2, h3]

/-- A one-bucket store caching the script https://app/x.js. -/
def exHitStore : CacheStore :=
  [(CACHE_NAME, [("https://app/x.js", { body := "cached-js", bodyUsed := false, rid := 0 })])]

/-- Witness for C3: a cached sub-resource request is served with zero
network calls. -/
theorem subresource_hit_no_network_witness :
    strStartsWith "https://app/x.js" "http" = true ∧
    ¬ "no-cors" = "navigate" ∧
    cachesMatch exHitStore "https://app/x.js"
      = some { body := "cached-js", bodyUsed := false, rid := 0 } ∧
    handleFetch netAllOk exHitStore { url := "https://app/x.js", mode := "no-cors" } =
      { respondedWith := some (some { body := "cached-js", bodyUsed := false, rid := 0 }),
        store := exHitStore, pending := [], netCalls := 0, cacheLookups := 1 } :=
  ⟨by decide, by decide, by decide,
   subresource_hit_no_network netAllOk exHitStore
     { url := "https://app/x.js", mode := "no-cors" }
     { body := "cached-js", bodyUsed := false, rid := 0 }
     (by decide) (by decide) (by decide)⟩

/-- C7: for a non-navigation HTTP(S) request with no cached entry, when
the network fetch fails the handler responds with the no-match result
(no response), leaving the store untouched, with no pending work. -/
theorem subresource_total_miss_no_response (net : String → Option String)
    (store : CacheStore) (req : Request)
    (h1 : strStartsWith req.url "http" = true)
    (h2 : ¬ req.mode = "navigate")
    (h3 : cachesMatch store req.url = none)
    (h4 : net req.url = none) :
    handleFetch net store req =
      { respondedWith := some none, store := store, pending := [],
        netCalls := 1, cacheLookups := 1 } := by
  simp [handleFetch, fetchResp, h1, h2, h3, h4]

/-- Witness for C7: an uncached image request on a dead network yields the
no-match result. -/
theorem subresource_total_miss_no_response_witness :
    strStartsWith "https://app/miss.png" "http" = true ∧
    ¬ "no-cors" = "navigate" ∧
    cachesMatch exHitStore "https://app/miss.png" = none ∧
    netDown "https://app/miss.png" = none ∧
    handleFetch netDown exHitStore { url := "https://app/miss.png", mode := "no-cors" } =
      { respondedWith := some none, store := exHitStore, pending := [],
        netCalls := 1, cacheLookups := 1 } :=
  ⟨by decide, by decide, by decide, by decide,
   subresource_total_miss_no_response netDown exHitStore
     { url := "https://app/miss.png", mode := "no-cors" }
     (by decide) (by decide) (by decide) (by decide)⟩

/-- C5: for a navigation request whose network fetch fails, the handler
responds with the cached entry for the request when one exists, else with
the stored /offline.html fallback, and when neither exists the result is
the explicit no-response outcome; exactly one network call was attempted. -/
theorem navigation_failure_fallback_chain (net : String → Option String)
    (store : CacheStore) (req : Request)
    (h1 : strStartsWith req.url "http" = true)
    (h2 : req.mode = "navigate")
    (h3 : net req.url = none) :
    (handleFetch net store req).respondedWith
      = some (Option.orElse (cachesMatch store req.url)
          (fun _ => cachesMatch store "/offline.html")) ∧
    (cachesMatch store req.url = none → cachesMatch store "/offline.html" = none →
      (handleFetch net store req).respondedWith = some none) ∧
    (handleFetch net store req).netCalls = 1 := by
  rcases hm : cachesMatch store req.url with _ | r
  · refine ⟨?_, ?_, ?_⟩
    · simp [handleFetch, fetchResp, h1, h2, h3, hm, Option.orElse]
    · intro _ hoff
      simp [handleFetch, fetchResp, h1, h2, h3, hm, hoff]
    · simp [handleFetch, fetchResp, h1, h2, h3, hm]
  · refine ⟨?_, ?_, ?_⟩
    · simp [handleFetch, fetchResp, h1, h2, h3, hm, Option.orElse]
    · intro hnone
      exact absurd hnone (by simp)
    · simp [handleFetch, fetchResp, h1, h2, h3, hm]

/-- Witness for C5: a navigation request on a dead network over an empty
store falls through the whole chain to the explicit no-response result. -/
theorem navigation_failure_fallback_chain_witness :
    strStartsWith "https://app/" "http" = true ∧
    ("navigate" : String) = "navigate" ∧
    netDown "https://app/" = none ∧
    ((handleFetch netDown [] { url := "https://app/", mode := "navigate" }).respondedWith
      = some (Option.orElse (cachesMatch [] "https://app/")
          (fun _ => cachesMatch [] "/offline.html")) ∧
     (cachesMatch ([] : CacheStore) "https://app/" = none →
      cachesMatch ([] : CacheStore) "/offline.html" = none →
      (handleFetch netDown [] { url := "https://app/", mode := "navigate" }).respondedWith
        = some none) ∧
     (handleFetch netDown [] { url := "https://app/", mode := "navigate" }).netCalls = 1) :=
  ⟨by decide, rfl, rfl,
   navigation_failure_fallback_chain netDown []
     { url := "https://app/", mode := "navigate" } (by decide) rfl rfl⟩

/-- Amended C8: for every request whose URL does not start with "http",
the fetch handler returns without intercepting: no cache lookup, no
network fetch, no cache store, and no response supplied.  (The source
guard tests the four-character URL prefix "http", not the scheme.) -/
theorem non_http_url_passthrough (net : String → Option String)
    (store : CacheStore) (req : Request)
    (h : strStartsWith req.url "http" = false) :
    handleFetch net store req =
      { respondedWith := none, store := store, pending := [],
        netCalls := 0, cacheLookups := 0 } := by
  simp [handleFetch, h]

/-- Counterexample to C8 as stated: the request for httpx://a has scheme
httpx, which is neither http nor https, yet the handler intercepts it:
it performs a cache lookup and a network fetch and supplies a response,
because the guard only tests the URL prefix "http". -/
theorem scheme_guard_counterexample :
    urlScheme "httpx://a" ≠ "http" ∧
    urlScheme "httpx://a" ≠ "https" ∧
    (handleFetch netAllOk [] { url := "httpx://a", mode := "no-cors" }).netCalls = 1 ∧
    (handleFetch netAllOk [] { url := "httpx://a", mode := "no-cors" }).cacheLookups = 1 ∧
    ¬ (handleFetch netAllOk [] { url := "httpx://a", mode := "no-cors" }).respondedWith
        = none := by
  refine ⟨by decide, by decide, by decide, by decide, by decide⟩

/-- Witness for the amended C8: an extension-internal request passes
through untouched. -/
theorem non_http_url_passthrough_witness :
    strStartsWith "chrome-extension://abc/bg.js" "http" = false ∧
    handleFetch netAllOk exHitStore { url := "chrome-extension://abc/bg.js", mode := "no-cors" } =
      { respondedWith := none, store := exHitStore, pending := [],
        netCalls := 0, cacheLookups := 0 } :=
  ⟨by decide,
   non_http_url_passthrough netAllOk exHitStore
     { url := "chrome-extension://abc/bg.js", mode := "no-cors" } (by decide)⟩

/-- C2: for a non-navigation HTTP(S) request with no cached entry whose
network fetch succeeds, the handler responds with the fetched response,
whose body is still unread; the value scheduled for storage is a clone —
a distinct object with the same body; at the moment the response is
returned the CACHE_NAME bucket does not yet hold the entry (the put is
fire-and-forget, recorded as pending), and once the pending puts settle
the bucket holds the clone under the request URL. -/
theorem subresource_miss_caches_clone (net : String → Option String)
    (store : CacheStore) (req : Request) (body : String)
    (h1 : strStartsWith req.url "http" = true)
    (h2 : ¬ req.mode = "navigate")
    (h3 : cachesMatch store req.url = none)
    (h4 : net req.url = some body) :
    (handleFetch net store req).respondedWith
      = some (some { body := body, bodyUsed := false, rid := 0 }) ∧
    ({ body := body, bodyUsed := false, rid := 0 } : Response).bodyUsed = false ∧
    (handleFetch net store req).pending
      = [(req.url, Response.clone { body := body, bodyUsed := false, rid := 0 })] ∧
    Response.clone { body := body, bodyUsed := false, rid := 0 }
      ≠ ({ body := body, bodyUsed := false, rid := 0 } : Response) ∧
    (Response.clone { body := body, bodyUsed := false, rid := 0 }).body = body ∧
    bucketGet (storeGet (handleFetch net store req).store CACHE_NAME) req.url = none ∧
    bucketGet
      (storeGet
        (applyPending (handleFetch net store req).store (handleFetch net store req).pending)
        CACHE_NAME)
      req.url
      = some (Response.clone { body := body, bodyUsed := false, rid := 0 }) := by
  have hout : handleFetch net store req =
      { respondedWith := some (some { body := body, bodyUsed := false, rid := 0 }),
        store := cachesOpen store CACHE_NAME,
        pending := [(req.url, Response.clone { body := body, bodyUsed := false, rid := 0 })],
        netCalls := 1, cacheLookups := 1 } := by
    simp [handleFetch, fetchResp, h1, h2, h3, h4]
  rw [hout]
  refine ⟨rfl, rfl, rfl, ?_, rfl, ?_, ?_⟩
  · simp [Response.clone]
  · rw [storeGet_cachesOpen]
    exact cachesMatch_none_bucketGet store req.url CACHE_NAME h3
  · show bucketGet
      (storeGet
        (storeSet (cachesOpen store CACHE_NAME) CACHE_NAME
          (bucketPut (storeGet (cachesOpen store CACHE_NAME) CACHE_NAME) req.url
            (Response.clone { body := body, bodyUsed := false, rid := 0 })))
        CACHE_NAME)
      req.url = some (Response.clone { body := body, bodyUsed := false, rid := 0 })
    rw [storeGet_storeSet_self, bucketGet_bucketPut_self]

/-- Witness for C2: an uncached image fetched successfully is returned
unread while its clone is scheduled for storage and lands in the bucket. -/
theorem subresource_miss_caches_clone_witness :
    strStartsWith "https://app/pic.png" "http" = true ∧
    ¬ "no-cors" = "navigate" ∧
    cachesMatch exHitStore "https://app/pic.png" = none ∧
    netAllOk "https://app/pic.png" = some "ok" ∧
    ((handleFetch netAllOk exHitStore { url := "https://app/pic.png", mode := "no-cors" }).respondedWith
      = some (some { body := "ok", bodyUsed := false, rid := 0 }) ∧
     ({ body := "ok", bodyUsed := false, rid := 0 } : Response).bodyUsed = false ∧
     (handleFetch netAllOk exHitStore { url := "https://app/pic.png", mode := "no-cors" }).pending
      = [("https://app/pic.png", Response.clone { body := "ok", bodyUsed := false, rid := 0 })] ∧
     Response.clone { body := "ok", bodyUsed := false, rid := 0 }
      ≠ ({ body := "ok", bodyUsed := false, rid := 0 } : Response) ∧
     (Response.clone { body := "ok", bodyUsed := false, rid := 0 }).body = "ok" ∧
     bucketGet
       (storeGet
         (handleFetch netAllOk exHitStore { url := "https://app/pic.png", mode := "no-cors" }).store
         CACHE_NAME)
       "https://app/pic.png" = none ∧
     bucketGet
       (storeGet
         (applyPending
           (handleFetch netAllOk exHitStore { url := "https://app/pic.png", mode := "no-cors" }).store
           (handleFetch netAllOk exHitStore { url := "https://app/pic.png", mode := "no-cors" }).pending)
         CACHE_NAME)
       "https://app/pic.png"
      = some (Response.clone { body := "ok", bodyUsed := false, rid := 0 })) :=
  ⟨by decide, by decide, by decide, rfl,
   subresource_miss_caches_clone netAllOk exHitStore
     { url := "https://app/pic.png", mode := "no-cors" } "ok"
     (by decide) (by decide) (by decide) rfl⟩

/-
  Lemmas about the install loop.
-/

theorem installBucket_get_notmem (net : String → Option String) (m : List String)
    (b : Bucket) (x : String) (hx : ¬ x ∈ m) :
    bucketGet (installBucket net m b).1 x = bucketGet b x := by
  induction m generalizing b with
  | nil => rw [installBucket]
  | cons a rest ih =>
    simp only [List.mem_cons, not_or] at hx
    rcases h : net a with _ | body
    · simp only [installBucket, h]
      exact ih b hx.2
    · simp only [installBucket, h]
      rw [ih _ hx.2, bucketGet_bucketPut_ne _ _ _ _ (fun e => hx.1 (e.symm))]

theorem installBucket_get_of_mem (net : String → Option String) (m : List String)
    (b : Bucket) (x : String) (body : String)
    (hx : x ∈ m) (hb : net x = some body) :
    bucketGet (installBucket net m b).1 x
      = some { body := body, bodyUsed := false, rid := 0 } := by
  induction m generalizing b with
  | nil => simp at hx
  | cons a rest ih =>
    by_cases hr : x ∈ rest
    · rcases h : net a with _ | abody
      · simp only [installBucket, h]
        exact ih b hr
      · simp only [installBucket, h]
        exact ih _ hr
    · have hax : a = x := by
        rcases List.mem_cons.mp hx with he | he
        · exact he.symm
        · exact absurd he hr
      subst hax
      rw [installBucket, hb]
      rw [installBucket_get_notmem net rest _ a hr, bucketGet_bucketPut_self]

theorem installBucket_fst_id (net : String → Option String) (m : List String) (b : Bucket)
    (h : ∀ x body, x ∈ m → net x = some body →
      bucketGet b x = some { body := body, bodyUsed := false, rid := 0 }) :
    (installBucket net m b).1 = b := by
  induction m generalizing b with
  | nil => rw [installBucket]
  | cons a rest ih =>
    rcases ha : net a with _ | body
    · simp only [installBucket, ha]
      exact ih b (fun x body hx hb => h x body (List.mem_cons_of_mem a hx) hb)
    · simp only [installBucket, ha]
      rw [bucketPut_eq_of_get b a _ (h a body (List.mem_cons_self a rest) ha)]
      exact ih b (fun x body hx hb => h x body (List.mem_cons_of_mem a hx) hb)

theorem installBucket_covered (net : String → Option String) (m : List String)
    (b : Bucket) (a : String) (ha : a ∈ m) :
    ¬ bucketGet (installBucket net m b).1 a = none ∨ a ∈ (installBucket net m b).2 := by
  induction m generalizing b with
  | nil => simp at ha
  | cons x rest ih =>
    rcases hx : net x with _ | body
    · simp only [installBucket, hx]
      by_cases hr : a ∈ rest
      · rcases ih b hr with hl | hrr
        · exact Or.inl hl
        · exact Or.inr (List.mem_cons_of_mem x hrr)
      · have hax : x = a := by
          rcases List.mem_cons.mp ha with he | he
          · exact he.symm
          · exact absurd he hr
        subst hax
        exact Or.inr (List.mem_cons_self x _)
    · simp only [installBucket, hx]
      by_cases hr : a ∈ rest
      · exact ih _ hr
      · have hax : x = a := by
          rcases List.mem_cons.mp ha with he | he
          · exact he.symm
          · exact absurd he hr
        subst hax
        left
        rw [installBucket_get_notmem net rest _ x hr, bucketGet_bucketPut_self]
        simp

/-- C4: during install, every manifest entry either ends up in the
CACHE_NAME bucket or is recorded in the warning log; a failing entry is
caught individually, so it aborts neither the other entries nor the
installation (the install function is total and always returns). -/
theorem install_entry_cached_or_warned (m : List String) (net : String → Option String)
    (s : CacheStore) (asset : String) (h : asset ∈ m) :
    ¬ bucketGet (storeGet (installOverStore m net s).1 CACHE_NAME) asset = none ∨
    asset ∈ (installOverStore m net s).2 := by
  have h1 : storeGet (installOverStore m net s).1 CACHE_NAME
      = (installBucket net m (storeGet (cachesOpen s CACHE_NAME) CACHE_NAME)).1 :=
    storeGet_storeSet_self _ _ _
  rw [h1]
  exact installBucket_covered net m _ asset h

/-- Witness for C4, the spec scenario: manifest ["/a.js", "/b.js"] with
the fetch of /a.js throwing; install completes with /b.js cached, /a.js
only warned about. -/
theorem install_entry_cached_or_warned_witness :
    "/b.js" ∈ (["/a.js", "/b.js"] : List String) ∧
    (¬ bucketGet (storeGet (installOverStore ["/a.js", "/b.js"] netFailA []).1 CACHE_NAME)
        "/b.js" = none ∨
      "/b.js" ∈ (installOverStore ["/a.js", "/b.js"] netFailA []).2) ∧
    (installOverStore ["/a.js", "/b.js"] netFailA []).2 = ["/a.js"] ∧
    bucketGet (storeGet (installOverStore ["/a.js", "/b.js"] netFailA []).1 CACHE_NAME) "/b.js"
      = some { body := "B", bodyUsed := false, rid := 0 } ∧
    bucketGet (storeGet (installOverStore ["/a.js", "/b.js"] netFailA []).1 CACHE_NAME) "/a.js"
      = none :=
  ⟨by decide,
   install_entry_cached_or_warned ["/a.js", "/b.js"] netFailA [] "/b.js" (by decide),
   by decide, by decide, by decide⟩

/-- C6: running the install precache procedure twice with the same
manifest and network, against any starting store, yields the same final
store contents as running it once: re-fetched entries overwrite their
bucket slots in place, nothing is duplicated, and no error is possible
(the procedure is a total function). -/
theorem install_idempotent (m : List String) (net : String → Option String) (s : CacheStore) :
    (installOverStore m net (installOverStore m net s).1).1 = (installOverStore m net s).1 := by
  have hopen : cachesOpen (installOverStore m net s).1 CACHE_NAME
      = (installOverStore m net s).1 :=
    cachesOpen_of_mem _ _ (mem_keys_storeSet _ _ _)
  have step1 : (installOverStore m net (installOverStore m net s).1).1
      = storeSet (installOverStore m net s).1 CACHE_NAME
          (installBucket net m (storeGet (installOverStore m net s).1 CACHE_NAME)).1 := by
    show storeSet (cachesOpen (installOverStore m net s).1 CACHE_NAME) CACHE_NAME
        (installBucket net m
          (storeGet (cachesOpen (installOverStore m net s).1 CACHE_NAME) CACHE_NAME)).1 = _
    rw [hopen]
  have hget : storeGet (installOverStore m net s).1 CACHE_NAME
      = (installBucket net m (storeGet (cachesOpen s CACHE_NAME) CACHE_NAME)).1 :=
    storeGet_storeSet_self _ _ _
  have hid : (installBucket net m (storeGet (installOverStore m net s).1 CACHE_NAME)).1
      = storeGet (installOverStore m net s).1 CACHE_NAME := by
    rw [hget]
    exact installBucket_fst_id net m _
      (fun x body hx hb => installBucket_get_of_mem net m _ x body hx hb)
  rw [step1, hid, hget]
  exact storeSet_storeSet (cachesOpen s CACHE_NAME) CACHE_NAME _ _

/-- A one-bucket store matches a URL exactly when its bucket holds it. -/
theorem cachesMatch_single (n : String) (b : Bucket) (u : String) :
    cachesMatch [(n, b)] u = bucketGet b u := by
  rcases h : bucketGet b u with _ | r <;> simp [cachesMatch, h]

/-- Installing over the empty store yields exactly the CACHE_NAME bucket
produced by the precache loop from an empty bucket. -/
theorem installSW_empty (netI : String → Option String) :
    (installSW netI []).1 = [(CACHE_NAME, (installBucket netI PRECACHE_ASSETS []).1)] := by
  rfl

/-- C9: the manifest PRECACHE_ASSETS of src/service-worker.js does not
contain "/offline.html", so a fresh install (over the empty store, with
any install-time network) never stores the offline fallback; hence a
navigation request whose fetch fails and which has no matching entry in
the freshly installed store is answered with the no-response result. -/
theorem offline_fallback_not_precached (netI netF : String → Option String) (req : Request)
    (h1 : strStartsWith req.url "http" = true)
    (h2 : req.mode = "navigate")
    (h3 : netF req.url = none)
    (h4 : cachesMatch (installSW netI []).1 req.url = none) :
    ¬ "/offline.html" ∈ PRECACHE_ASSETS ∧
    (handleFetch netF (installSW netI []).1 req).respondedWith = some none := by
  refine ⟨by decide, ?_⟩
  have hoff : cachesMatch (installSW netI []).1 "/offline.html" = none := by
    rw [installSW_empty, cachesMatch_single,
      installBucket_get_notmem netI PRECACHE_ASSETS [] "/offline.html" (by decide)]
    rfl
  simp [handleFetch, fetchResp, h1, h2, h3, h4, hoff]

/-- Witness for C9: after installing everything over the empty store, a
navigation to an unknown page on a dead network gets no response at all. -/
theorem offline_fallback_not_precached_witness :
    strStartsWith "https://app/gone" "http" = true ∧
    ("navigate" : String) = "navigate" ∧
    netDown "https://app/gone" = none ∧
    cachesMatch (installSW netAllOk []).1 "https://app/gone" = none ∧
    (¬ "/offline.html" ∈ PRECACHE_ASSETS ∧
     (handleFetch netDown (installSW netAllOk []).1
        { url := "https://app/gone", mode := "navigate" }).respondedWith = some none) :=
  ⟨by decide, rfl, rfl, by decide,
   offline_fallback_not_precached netAllOk netDown
     { url := "https://app/gone", mode := "navigate" } (by decide) rfl rfl (by decide)⟩

/-- C10: in both game scripts, a call to handleResponse(choice) made when
currentIndex is at or past the end of the stimuli is a no-op: the state
(score, currentIndex, recorded responses, feedback) is returned unchanged
and no feedback is shown. -/
theorem handleResponse_noop_after_end (choice1 choice2 : String) (now : Nat)
    (s1 : WordGame.GameState) (s2 : AlienGame.GameState)
    (h1 : s1.currentIndex ≥ s1.stimuli.length)
    (h2 : s2.currentIndex ≥ s2.stimuli.length) :
    WordGame.handleResponse choice1 now s1 = s1 ∧
    AlienGame.handleResponse choice2 s2 = s2 := by
  constructor
  · rw [WordGame.handleResponse, dif_pos h1]
  · rw [AlienGame.handleResponse, dif_pos h2]

/-- A finished word-game state: one stimulus, already answered. -/
def exWordState : WordGame.GameState :=
  { stimuli := [{ word := "Apple", correct := "left" }], currentIndex := 1, score := 1,
    responses := [{ word := "Apple", choice := "left", isCorrect := true,
                    timeTakenMs := 800, correctAnswer := "left" }],
    feedback := none, startTime := 0 }

/-- A finished alien-game state: one stimulus, already answered. -/
def exAlienState : AlienGame.GameState :=
  { stimuli := [{ image := "/images/alien01_blue.png", correct := "right" }],
    currentIndex := 1, score := 0,
    attempts := [{ image := "/images/alien01_blue.png", choiceUpper := "LEFT",
                   category := "Positive", isCorrect := false }],
    feedback := "Negative" }

/-- Witness for C10 on finished game states. -/
theorem handleResponse_noop_after_end_witness :
    exWordState.currentIndex ≥ exWordState.stimuli.length ∧
    exAlienState.currentIndex ≥ exAlienState.stimuli.length ∧
    (WordGame.handleResponse "right" 1000 exWordState = exWordState ∧
     AlienGame.handleResponse "left" exAlienState = exAlienState) :=
  ⟨by decide, by decide,
   handleResponse_noop_after_end "right" "left" 1000 exWordState exAlienState
     (by decide) (by decide)⟩
